import Mathlib

/-!
# Verification of the geometry utilities of `visualmapper`

Shallow embedding of the canvas-geometry helpers of the `visualmapper`
repository (the utility module bundled with `src/components/CranePickerModal.tsx`
and the `pixelsPerMeter` computation of the main editor component), together
with proofs of the specification claims about them.

Modelling conventions:
* JavaScript `number` is modelled as the real numbers `ℝ`; `Math.sqrt`,
  `Math.atan2`, `Math.cos`, `Math.sin`, `Math.round` become `Real.sqrt`,
  an `atan2` defined from `Real.arctan` with the usual quadrant cases,
  `Real.cos`, `Real.sin` and `round`.
* `null` / `undefined` arguments and results are modelled with `Option`.
* A JS local initialised to `Infinity` (a running minimum) is modelled as
  `Option ℝ` state: `none` plays the role of `Infinity`, which every finite
  candidate beats.
* A loop `for (i = 0; i < n; i++) { a[i], a[(i+1) % n] }` over the cyclic
  successor pairs of an array is rendered with `cyclicPairs`.
* Out-of-range indexing (which would yield `undefined` in JS and poison the
  arithmetic) is rendered with a default of the origin point; every claim
  only exercises in-range accesses.
-/

set_option maxHeartbeats 1000000

namespace VisualMapper

noncomputable section

/-- A 2-D point, the `Point` type of `src/types.ts`. -/
structure Point where
  x : ℝ
  y : ℝ

/-- The origin, used as the (unreachable) default for list indexing. -/
def origin : Point := ⟨0, 0⟩

/-- The `points[i]` with an out-of-range default (unreachable in the claims). -/
def ptAt (l : List Point) (i : ℕ) : Point := l.getD i origin

/-- The cyclic successor pairs `(a[i], a[(i+1) % n])` of a list, in index
order; renders the ubiquitous `for (i...) { p1 = pts[i]; p2 = pts[(i+1) % n] }`
loops of the source. -/
def cyclicPairs {α : Type} (l : List α) : List (α × α) := l.zip (l.rotate 1)

/-- The `getDistance` of the utility module: Euclidean distance. -/
def getDistance (p1 p2 : Point) : ℝ :=
  Real.sqrt ((p2.x - p1.x) ^ 2 + (p2.y - p1.y) ^ 2)

/-- The `getMidpoint` of the utility module. -/
def getMidpoint (p1 p2 : Point) : Point :=
  ⟨(p1.x + p2.x) / 2, (p1.y + p2.y) / 2⟩

/-- The `orientation` of the utility module: 0 collinear, 1 clockwise,
2 counter-clockwise. -/
def orientation (p q r : Point) : ℕ :=
  let val := (q.y - p.y) * (r.x - q.x) - (q.x - p.x) * (r.y - q.y)
  if val = 0 then 0 else if val > 0 then 1 else 2

/-- The `segmentsCross` of the utility module: true crossing test that excludes
pairs of segments merely touching at (approximately) shared endpoints. -/
def segmentsCross (a1 a2 b1 b2 : Point) : Bool :=
  let o1 := orientation a1 a2 b1
  let o2 := orientation a1 a2 b2
  let o3 := orientation b1 b2 a1
  let o4 := orientation b1 b2 a2
  if o1 ≠ o2 ∧ o3 ≠ o4 then
    if |a1.x - b1.x| < 0.1 ∧ |a1.y - b1.y| < 0.1 then false
    else if |a1.x - b2.x| < 0.1 ∧ |a1.y - b2.y| < 0.1 then false
    else if |a2.x - b1.x| < 0.1 ∧ |a2.y - b1.y| < 0.1 then false
    else if |a2.x - b2.x| < 0.1 ∧ |a2.y - b2.y| < 0.1 then false
    else true
  else false

/-- The `checkPolygonSelfIntersection` of the utility module: does the candidate
segment `points[last] → nextPoint` cross an existing segment?  When the
candidate point closes the polygon (coincides with `points[0]` within 0.1),
the first segment is excluded from the test. -/
def checkPolygonSelfIntersection (points : List Point) (nextPoint : Point) : Bool :=
  if points.length < 3 then false
  else
    let p1 := ptAt points (points.length - 1)
    let q1 := nextPoint
    let isClosing :=
      |nextPoint.x - (ptAt points 0).x| < 0.1 ∧ |nextPoint.y - (ptAt points 0).y| < 0.1
    let startIdx := if isClosing then 1 else 0
    let endIdx := points.length - 2
    (List.range' startIdx (endIdx - startIdx)).any fun i =>
      segmentsCross p1 q1 (ptAt points i) (ptAt points (i + 1))

/-- The `getClosestPointOnSegment` of the utility module: closest point on segment
`AB` to `P`; the division by the squared length is guarded by a zero test and
the projection parameter is clamped to `[0, 1]`. -/
def getClosestPointOnSegment (p a b : Point) : Point :=
  let atob : Point := ⟨b.x - a.x, b.y - a.y⟩
  let atop : Point := ⟨p.x - a.x, p.y - a.y⟩
  let lenSq := atob.x * atob.x + atob.y * atob.y
  let dot := atop.x * atob.x + atop.y * atob.y
  let t0 := if lenSq = 0 then 0 else dot / lenSq
  let t := max 0 (min 1 t0)
  ⟨a.x + atob.x * t, a.y + atob.y * t⟩

/-- The `pointToLineDistance` of the utility module: distance from a point to a
segment; `param` stays at the sentinel `-1` when the segment is degenerate. -/
def pointToLineDistance (point start finish : Point) : ℝ :=
  let A := point.x - start.x
  let B := point.y - start.y
  let C := finish.x - start.x
  let D := finish.y - start.y
  let dot := A * C + B * D
  let lenSq := C * C + D * D
  let param := if lenSq ≠ 0 then dot / lenSq else -1
  let xx := if param < 0 then start.x else if param > 1 then finish.x else start.x + param * C
  let yy := if param < 0 then start.y else if param > 1 then finish.y else start.y + param * D
  let dx := point.x - xx
  let dy := point.y - yy
  Real.sqrt (dx * dx + dy * dy)

/-- The expression `pixelsPerMeter ? pixelsPerMeter / 1000 : 1` shared by
`getClosestGridPoint` and `getAxisSystemPoints`; JS truthiness makes both
`null` and `0` fall back to 1 px/mm. -/
def pxPerMmOf (pixelsPerMeter : Option ℝ) : ℝ :=
  match pixelsPerMeter with
  | none => 1
  | some v => if v = 0 then 1 else v / 1000

/-- The fields of `GridConfig` (`src/types.ts`) consumed by the geometry
(`color` and `opacity` are presentation-only and omitted). -/
structure GridConfig where
  visible : Bool
  sizeMm : ℝ
  offsetX : ℝ
  offsetY : ℝ

/-- The `getClosestGridPoint` of the utility module: nearest grid intersection, or
`null` for an invisible grid or a pixel step below 2. -/
def getClosestGridPoint (p : Point) (gridConfig : GridConfig)
    (pixelsPerMeter : Option ℝ) : Option Point :=
  if gridConfig.visible = false then none
  else
    let pxPerMm := pxPerMmOf pixelsPerMeter
    let stepPx := gridConfig.sizeMm * pxPerMm
    if stepPx < 2 then none
    else
      let relX := p.x - gridConfig.offsetX
      let relY := p.y - gridConfig.offsetY
      some ⟨(round (relX / stepPx) : ℤ) * stepPx + gridConfig.offsetX,
            (round (relY / stepPx) : ℤ) * stepPx + gridConfig.offsetY⟩

/-- The shape kinds of `ShapeType` (`src/types.ts`). -/
inductive ShapeType where
  | rectangle | polygon | icon | arrow | text | bullet | image | line
  | circle | triangle | callout | axis | square
deriving DecidableEq

/-- The fields of `Shape` (`src/types.ts`) consumed by the snapping geometry;
styling fields are omitted. -/
structure Shape where
  type : ShapeType
  points : List Point

/-- The `shape.type === 'polygon' || shape.type === 'rectangle' ||
shape.type === 'square'`, the filter of `calculateSnapCorrection`. -/
def isSnapTargetType (s : Shape) : Bool :=
  s.type = ShapeType.polygon ∨ s.type = ShapeType.rectangle ∨ s.type = ShapeType.square

/-- The mutable locals of `calculateSnapCorrection`
(`minDst / snapX / snapY / snapPoint / foundVertexSnap`). -/
structure SnapState where
  minDst : ℝ
  snapX : ℝ
  snapY : ℝ
  snapPoint : Option Point
  found : Bool

/-- The result record `{ delta, snapPoint }` of `calculateSnapCorrection`. -/
structure SnapResult where
  delta : Point
  snapPoint : Option Point

/-- One step of the vertex-to-vertex phase of `calculateSnapCorrection`. -/
def vertexSnapStep (mp : Point) (st : SnapState) (sp : Point) : SnapState :=
  let d := getDistance mp sp
  if d < st.minDst then ⟨d, sp.x - mp.x, sp.y - mp.y, some sp, true⟩ else st

/-- Phase 1 of `calculateSnapCorrection`: vertex-to-vertex snapping over every
moving point, valid static shape and static vertex. -/
def vertexSnapPhase (movingPoints : List Point) (shapes : List Shape)
    (threshold : ℝ) : SnapState :=
  movingPoints.foldl
    (fun st mp => shapes.foldl (fun st s => s.points.foldl (vertexSnapStep mp) st) st)
    ⟨threshold, 0, 0, none, false⟩

/-- One step of the vertex-to-edge phase of `calculateSnapCorrection`
(`foundVertexSnap` is not written by this phase). -/
def edgeSnapStep (mp : Point) (st : SnapState) (pq : Point × Point) : SnapState :=
  let closestOnSegment := getClosestPointOnSegment mp pq.1 pq.2
  let d := getDistance mp closestOnSegment
  if d < st.minDst then
    ⟨d, closestOnSegment.x - mp.x, closestOnSegment.y - mp.y, some closestOnSegment, st.found⟩
  else st

/-- Phase 2 of `calculateSnapCorrection`: vertex-to-edge snapping. -/
def edgeSnapPhase (movingPoints : List Point) (shapes : List Shape)
    (st0 : SnapState) : SnapState :=
  movingPoints.foldl
    (fun st mp =>
      shapes.foldl (fun st s => (cyclicPairs s.points).foldl (edgeSnapStep mp) st) st)
    st0

/-- The moving-point / static-vertex pairs visited by the vertex phase of
`calculateSnapCorrection`, in visit order. -/
def vertexPairs (movingPoints : List Point) (shapes : List Shape) :
    List (Point × Point) :=
  movingPoints.flatMap fun mp =>
    shapes.flatMap fun s => s.points.map fun sp => (mp, sp)

/-- The `calculateSnapCorrection` of the utility module: the delta snapping a set
of moving points onto static shapes; an exact-vertex hit (phase 1) returns
immediately, otherwise the edge phase continues from the phase-1 state. -/
def calculateSnapCorrection (movingPoints : List Point) (staticShapes : List Shape)
    (threshold : ℝ) : SnapResult :=
  let validStaticShapes := staticShapes.filter isSnapTargetType
  let st1 := vertexSnapPhase movingPoints validStaticShapes threshold
  if st1.found then ⟨⟨st1.snapX, st1.snapY⟩, st1.snapPoint⟩
  else
    let st2 := edgeSnapPhase movingPoints validStaticShapes st1
    ⟨⟨st2.snapX, st2.snapY⟩, st2.snapPoint⟩

/-- The result of `calculateSnapCorrection` when only the vertex phase ran. -/
def vertexOnlyResult (movingPoints : List Point) (staticShapes : List Shape)
    (threshold : ℝ) : SnapResult :=
  let st1 := vertexSnapPhase movingPoints (staticShapes.filter isSnapTargetType) threshold
  ⟨⟨st1.snapX, st1.snapY⟩, st1.snapPoint⟩

/-- The `getCentroid` of the utility module: vertex average (with the 0-, 1- and
2-point special cases of the source). -/
def getCentroid (points : List Point) : Point :=
  match points with
  | [] => ⟨0, 0⟩
  | [p] => p
  | [p, q] => getMidpoint p q
  | _ =>
    let sx := points.foldl (fun acc p => acc + p.x) 0
    let sy := points.foldl (fun acc p => acc + p.y) 0
    ⟨sx / points.length, sy / points.length⟩

/-- The `Math.min(...xs)` over a spread list; the empty case (`Infinity` in JS) is
unreachable in every use below and defaults to 0. -/
def listMin (l : List ℝ) : ℝ :=
  match l with
  | [] => 0
  | h :: t => t.foldl min h

/-- The `Math.max(...xs)` over a spread list; empty case as in `listMin`. -/
def listMax (l : List ℝ) : ℝ :=
  match l with
  | [] => 0
  | h :: t => t.foldl max h

/-- The result record of `getBoundingBox`. -/
structure BBox where
  minX : ℝ
  maxX : ℝ
  minY : ℝ
  maxY : ℝ
  width : ℝ
  height : ℝ

/-- The `getBoundingBox` of the utility module. -/
def getBoundingBox (points : List Point) : BBox :=
  let xs := points.map Point.x
  let ys := points.map Point.y
  ⟨listMin xs, listMax xs, listMin ys, listMax ys,
   listMax xs - listMin xs, listMax ys - listMin ys⟩

/-- The `Math.atan2(y, x)` (note the argument order), defined from `Real.arctan`
with the standard quadrant corrections; the signed-zero distinctions of IEEE
are not modelled (`atan2 0 0 = 0`). -/
def atan2 (y x : ℝ) : ℝ :=
  if 0 < x then Real.arctan (y / x)
  else if x < 0 then
    (if 0 ≤ y then Real.arctan (y / x) + Real.pi else Real.arctan (y / x) - Real.pi)
  else if 0 < y then Real.pi / 2
  else if y < 0 then -(Real.pi / 2)
  else 0

/-- The `getPolygonPrimaryAngle` of the utility module: the angle of the longest
edge (ties resolved to the earliest edge by the strict comparison). -/
def getPolygonPrimaryAngle (points : List Point) : ℝ :=
  ((cyclicPairs points).foldl
    (fun (st : ℝ × ℝ) pq =>
      let len := getDistance pq.1 pq.2
      if len > st.1 then (len, atan2 (pq.2.y - pq.1.y) (pq.2.x - pq.1.x)) else st)
    (0, 0)).2

/-- The loop `while (normAngle > 90) normAngle -= 180;` of
`getPolygonLabelStats`. -/
def reduceAngleDown (a : ℝ) : ℝ :=
  if h : a > 90 then reduceAngleDown (a - 180) else a
termination_by (⌈a⌉).toNat
decreasing_by
  have h1 : (90 : ℤ) < ⌈a⌉ := Int.lt_ceil.mpr (by exact_mod_cast h)
  have hsub : ⌈a - 180⌉ = ⌈a⌉ - 180 := by
    rw [show (180 : ℝ) = ((180 : ℤ) : ℝ) by norm_num, Int.ceil_sub_int]
  omega

/-- The loop `while (normAngle < -90) normAngle += 180;` of
`getPolygonLabelStats`. -/
def reduceAngleUp (a : ℝ) : ℝ :=
  if h : a < -90 then reduceAngleUp (a + 180) else a
termination_by (⌈-a⌉).toNat
decreasing_by
  have h1 : (90 : ℤ) < ⌈-a⌉ := Int.lt_ceil.mpr (by push_cast; linarith)
  have hsub : ⌈-(a + 180)⌉ = ⌈-a⌉ - 180 := by
    rw [show -(a + 180) = -a - ((180 : ℤ) : ℝ) by push_cast; ring, Int.ceil_sub_int]
  omega

/-- The result record of `getPolygonLabelStats`. -/
structure LabelStats where
  x : ℝ
  y : ℝ
  rotation : ℝ
  maxFontSize : ℝ
  safeWidth : ℝ
  safeHeight : ℝ

/-- The `getPolygonLabelStats` of the utility module: label anchor, rotation and
safe text area for a polygon.  The running minimum distance to an edge starts
at `Infinity`, modelled as `Option ℝ` (`cyclicPairs points` is nonempty for
`points.length ≥ 3`, so the `getD` default is unreachable). -/
def getPolygonLabelStats (points : List Point) : LabelStats :=
  if points.length < 3 then
    let c := getCentroid points
    ⟨c.x, c.y, 0, 16, 100, 100⟩
  else
    let centroid := getCentroid points
    let minDistToEdge :=
      ((cyclicPairs points).foldl
        (fun (m : Option ℝ) pq =>
          let d := pointToLineDistance centroid pq.1 pq.2
          match m with
          | none => some d
          | some m0 => if d < m0 then some d else some m0)
        none).getD 0
    let bbox := getBoundingBox points
    let isVertical := bbox.height > bbox.width * 1.2
    let rotation0 : ℝ := if isVertical then -90 else 0
    let rotation :=
      if 3 ≤ points.length then
        let angle := getPolygonPrimaryAngle points * 180 / Real.pi
        let normAngle := reduceAngleUp (reduceAngleDown angle)
        if abs normAngle < 10 then 0
        else if abs (abs normAngle - 90) < 10 then -90
        else normAngle
      else rotation0
    let safeRadius := max 0 (minDistToEdge - 6)
    let maxFontSize := max 8 (safeRadius * 1.5)
    ⟨centroid.x, centroid.y, rotation, maxFontSize, safeRadius * 3, safeRadius * 1.6⟩

/-- The label-rotation rule in the spec's words for the non-vertical case,
for comparison with `getPolygonLabelStats`: derive the rotation from the
longest edge's angle, normalized into `[-90, 90]`, snapped to 0 within 10° of
0 and to -90 within 10° of ±90, else used as-is. -/
def specRotationFromLongestEdge (points : List Point) : ℝ :=
  let angle := getPolygonPrimaryAngle points * 180 / Real.pi
  let normAngle := reduceAngleUp (reduceAngleDown angle)
  if abs normAngle < 10 then 0
  else if abs (abs normAngle - 90) < 10 then -90
  else normAngle

/-- A world coordinate `{ x, y, z? }` with its optional elevation. -/
structure WorldCoord where
  x : ℝ
  y : ℝ
  z : Option ℝ

/-- The `CoordinateReference` of `src/types.ts` (the `id` tag is irrelevant to the
geometry and omitted). -/
structure CoordinateReference where
  pixel : Point
  world : WorldCoord

/-- The `transformPointToWorld` of the utility module: similarity transform fixed
by two pixel/world reference pairs, with linear interpolation of the optional
elevation along the reference segment. -/
def transformPointToWorld (pixelPoint : Point) (ref1 ref2 : CoordinateReference) :
    WorldCoord :=
  let dPx := ref2.pixel.x - ref1.pixel.x
  let dPy := ref2.pixel.y - ref1.pixel.y
  let distPx := Real.sqrt (dPx * dPx + dPy * dPy)
  let dWx := ref2.world.x - ref1.world.x
  let dWy := ref2.world.y - ref1.world.y
  let distW := Real.sqrt (dWx * dWx + dWy * dWy)
  if distPx = 0 then ⟨0, 0, none⟩
  else
    let scale := distW / distPx
    let rotation := atan2 dWy dWx - atan2 dPy dPx
    let relX := pixelPoint.x - ref1.pixel.x
    let relY := pixelPoint.y - ref1.pixel.y
    let rotatedX := (relX * Real.cos rotation - relY * Real.sin rotation) * scale
    let rotatedY := (relX * Real.sin rotation + relY * Real.cos rotation) * scale
    let z : Option ℝ :=
      match ref1.world.z, ref2.world.z with
      | some z1, some z2 =>
        let dot := relX * dPx + relY * dPy
        let lenSq := dPx * dPx + dPy * dPy
        let t := if 0 < lenSq then dot / lenSq else 0
        some (z1 + t * (z2 - z1))
      | some z1, none => some z1
      | none, some z2 => some z2
      | none, none => none
    ⟨rotatedX + ref1.world.x, rotatedY + ref1.world.y, z⟩

/-- The `isPointInPolygon` of the utility module: bounding-box rejection followed
by even-odd ray casting over the pairs `(polygon[i], polygon[j])`,
`j = i - 1 (mod n)`.  The empty polygon (a crash in JS) is unreachable and
returns `false`. -/
def isPointInPolygon (p : Point) (polygon : List Point) : Bool :=
  match polygon with
  | [] => false
  | _ =>
    let minX := listMin (polygon.map Point.x)
    let maxX := listMax (polygon.map Point.x)
    let minY := listMin (polygon.map Point.y)
    let maxY := listMax (polygon.map Point.y)
    if p.x < minX ∨ p.x > maxX ∨ p.y < minY ∨ p.y > maxY then false
    else
      (polygon.zip (polygon.rotate (polygon.length - 1))).foldl
        (fun inside ij =>
          if ((ij.1.y > p.y) ≠ (ij.2.y > p.y)) ∧
              p.x < (ij.2.x - ij.1.x) * (p.y - ij.1.y) / (ij.2.y - ij.1.y) + ij.1.x
          then !inside else inside)
        false

/-- The `scalePolygon` of the utility module: scale about the centroid. -/
def scalePolygon (points : List Point) (scale : ℝ) : List Point :=
  let center := getCentroid points
  points.map fun p =>
    ⟨center.x + (p.x - center.x) * scale, center.y + (p.y - center.y) * scale⟩

/-- The `doPolygonsIntersect` of the utility module: both polygons are shrunk by
0.999 about their centroids (so shared edges do not count as overlap), then
tested for a strict edge crossing or mutual containment. -/
def doPolygonsIntersect (poly1 poly2 : List Point) : Bool :=
  let p1 := scalePolygon poly1 0.999
  let p2 := scalePolygon poly2 0.999
  if (cyclicPairs p1).any (fun ab =>
      (cyclicPairs p2).any (fun cd =>
        let o1 := orientation ab.1 ab.2 cd.1
        let o2 := orientation ab.1 ab.2 cd.2
        let o3 := orientation cd.1 cd.2 ab.1
        let o4 := orientation cd.1 cd.2 ab.2
        if o1 ≠ o2 ∧ o3 ≠ o4 then true else false)) then true
  else if isPointInPolygon (ptAt p1 0) p2 then true
  else if isPointInPolygon (ptAt p2 0) p1 then true
  else false

/-- The `getEdges` inside `calculateMTV`: the cyclic edge vectors of a polygon. -/
def getEdges (poly : List Point) : List Point :=
  (cyclicPairs poly).map fun pq => ⟨pq.2.x - pq.1.x, pq.2.y - pq.1.y⟩

/-- The `normalize` inside `calculateMTV` (zero vector maps to zero). -/
def normalize (v : Point) : Point :=
  let len := Real.sqrt (v.x * v.x + v.y * v.y)
  if len = 0 then ⟨0, 0⟩ else ⟨v.x / len, v.y / len⟩

/-- The `perpendicular` inside `calculateMTV`. -/
def perpendicular (v : Point) : Point := ⟨-v.y, v.x⟩

/-- The `projectPolygon` inside `calculateMTV`: the projection interval
`[min, max]` of a polygon on an axis; the empty polygon (a crash in JS) is
unreachable and returns `(0, 0)`. -/
def projectPolygon (poly : List Point) (axis : Point) : ℝ × ℝ :=
  match poly with
  | [] => (0, 0)
  | p :: rest =>
    let first := p.x * axis.x + p.y * axis.y
    rest.foldl
      (fun (mm : ℝ × ℝ) q =>
        let proj := q.x * axis.x + q.y * axis.y
        (if proj < mm.1 then proj else mm.1, if proj > mm.2 then proj else mm.2))
      (first, first)

/-- The separating-axis loop of `calculateMTV` over the remaining edges.
`none` renders the early `return null` on a separating axis; the state
`Option (ℝ × Point)` is the pair `minOverlap / mtvAxis`, whose JS
initialisation `Infinity / null` is `none` (any finite overlap beats it). -/
def satLoop (movingPoly staticPoly : List Point) :
    List Point → Option (ℝ × Point) → Option (Option (ℝ × Point))
  | [], st => some st
  | edge :: rest, st =>
    let axis := normalize (perpendicular edge)
    if axis.x = 0 ∧ axis.y = 0 then satLoop movingPoly staticPoly rest st
    else
      let proj1 := projectPolygon movingPoly axis
      let proj2 := projectPolygon staticPoly axis
      if proj1.2 < proj2.1 ∨ proj2.2 < proj1.1 then none
      else
        let overlap := min (proj1.2 - proj2.1) (proj2.2 - proj1.1)
        match st with
        | none => satLoop movingPoly staticPoly rest (some (overlap, axis))
        | some s =>
          if overlap < s.1 then satLoop movingPoly staticPoly rest (some (overlap, axis))
          else satLoop movingPoly staticPoly rest st

/-- The `calculateMTV` of the utility module: minimum translation vector pushing
`movingPoly` out of `staticPoly` (separating axis theorem), oriented away from
the static centroid, with no extra buffer. -/
def calculateMTV (movingPoly staticPoly : List Point) : Option Point :=
  let allEdges := getEdges movingPoly ++ getEdges staticPoly
  match satLoop movingPoly staticPoly allEdges none with
  | none => none
  | some none => none
  | some (some s) =>
    let minOverlap := s.1
    let mtvAxis := s.2
    let movingCenter := getCentroid movingPoly
    let staticCenter := getCentroid staticPoly
    let dot := (movingCenter.x - staticCenter.x) * mtvAxis.x +
               (movingCenter.y - staticCenter.y) * mtvAxis.y
    if dot < 0 then some ⟨-mtvAxis.x * minOverlap, -mtvAxis.y * minOverlap⟩
    else some ⟨mtvAxis.x * minOverlap, mtvAxis.y * minOverlap⟩

/-- The `snapVerticesToEdges` of the utility module: each vertex moves to the
closest static vertex or edge point within the threshold (the running
`closestDist / snappedPoint` pair starts at `(threshold, vertex)`). -/
def snapVerticesToEdges (poly : List Point) (staticPolygons : List (List Point))
    (threshold : ℝ) : List Point :=
  poly.map fun vertex =>
    (staticPolygons.foldl
      (fun (acc : ℝ × Point) staticPoly =>
        let acc1 := staticPoly.foldl
          (fun (a : ℝ × Point) staticVertex =>
            let dist := Real.sqrt ((vertex.x - staticVertex.x) ^ 2 +
              (vertex.y - staticVertex.y) ^ 2)
            if dist < a.1 then (dist, staticVertex) else a)
          acc
        (cyclicPairs staticPoly).foldl
          (fun (a : ℝ × Point) pq =>
            let closestOnEdge := getClosestPointOnSegment vertex pq.1 pq.2
            let dist := Real.sqrt ((vertex.x - closestOnEdge.x) ^ 2 +
              (vertex.y - closestOnEdge.y) ^ 2)
            if dist < a.1 then (dist, closestOnEdge) else a)
          acc1)
      (threshold, vertex)).2

/-- One pass of the overlap-resolution loop of `resolveAllOverlaps`: every
static polygon still intersecting the current polygon applies its MTV; the
Boolean records `hasOverlap`. -/
def overlapPass (staticPolygons : List (List Point)) (poly : List Point) :
    List Point × Bool :=
  staticPolygons.foldl
    (fun acc staticPoly =>
      if doPolygonsIntersect acc.1 staticPoly then
        match calculateMTV acc.1 staticPoly with
        | some mtv => (acc.1.map fun p => ⟨p.x + mtv.x, p.y + mtv.y⟩, true)
        | none => (acc.1, true)
      else acc)
    (poly, false)

/-- The bounded iteration (`maxIterations = 10`) of `resolveAllOverlaps`. -/
def resolveLoop (staticPolygons : List (List Point)) :
    ℕ → List Point → List Point
  | 0, poly => poly
  | n + 1, poly =>
    let pass := overlapPass staticPolygons poly
    if pass.2 then resolveLoop staticPolygons n pass.1 else pass.1

/-- The `resolveAllOverlaps` of the utility module: up to 10 MTV passes against
all static polygons, then a vertex snap with threshold 5. -/
def resolveAllOverlaps (movingPoly : List Point)
    (staticPolygons : List (List Point)) : List Point :=
  snapVerticesToEdges (resolveLoop staticPolygons 10 movingPoly) staticPolygons 5

/-- The `AxisConfig` of `src/types.ts`. -/
structure AxisConfig where
  spacingMm : ℝ
  count : ℝ
  startLabel : String
  lengthMm : ℝ
  bothEnds : Bool
  reverse : Bool

/-- The numeric value of a list of decimal digits. -/
def digitsVal (cs : List Char) : Option ℕ :=
  if cs = [] then none
  else some (cs.foldl (fun acc c => acc * 10 + (c.toNat - 48)) 0)

/-- The `parseInt` of JS on a label string: an optional sign followed by the
longest prefix of decimal digits; `none` renders `NaN` (leading whitespace
and radix prefixes are not exercised by the labels and not modelled). -/
def parseIntJS (s : String) : Option ℤ :=
  match s.data with
  | [] => none
  | c :: rest =>
    if c = Char.ofNat 45 then (digitsVal (rest.takeWhile Char.isDigit)).map fun n => -(n : ℤ)
    else if c = Char.ofNat 43 then (digitsVal (rest.takeWhile Char.isDigit)).map fun n => (n : ℤ)
    else (digitsVal ((c :: rest).takeWhile Char.isDigit)).map fun n => (n : ℤ)

/-- The `charCodeAt(0)`; the empty string (`NaN` in JS) is unreachable here and
defaults to 0. -/
def charCodeAt0 (s : String) : ℤ :=
  match s.data with
  | [] => 0
  | c :: _ => (c.toNat : ℤ)

/-- The `String.fromCharCode` on a single code: the code is reduced mod 2^16
(ToUint16), an invalid code point yields the NUL character. -/
def fromCharCodeJS (code : ℤ) : String :=
  String.mk [Char.ofNat (code % 65536).toNat]

/-- The `getNextLabel` of the utility module: the `index`-th label starting from
`startLabel`, stepping numerically when the start parses as an integer and by
character code otherwise; `reverse` negates the step. -/
def getNextLabel (startLabel : String) (index : ℕ) (reverse : Bool) : String :=
  let step : ℤ := if reverse then -(index : ℤ) else (index : ℤ)
  match parseIntJS startLabel with
  | some n => toString (n + step)
  | none => fromCharCodeJS (charCodeAt0 startLabel + step)

/-- A generated axis label `{ pos, text }`. -/
structure AxisLabel where
  pos : Point
  text : String

/-- The result `{ lines, labels }` of `getAxisSystemPoints`. -/
structure AxisSystem where
  lines : List (Point × Point)
  labels : List AxisLabel

/-- The `getAxisSystemPoints` of the utility module: parallel axis lines from an
origin and direction, with guards for a missing config, non-positive
`count / spacingMm / lengthMm`, a pixel spacing below 0.1 or a pixel length
above 50000 (both by absolute value), and the count clamped to 100.  The JS
loop `for (i = 0; i < safeCount; i++)` with the real bound `safeCount` runs
`⌈safeCount⌉` times, hence `List.range ⌈safeCount⌉.toNat` (the source's
`typeof` checks on `count` and `spacingMm` always pass in this typed model). -/
def getAxisSystemPoints (start directionPoint : Point) (config : Option AxisConfig)
    (pixelsPerMeter : Option ℝ) : AxisSystem :=
  match config with
  | none => ⟨[], []⟩
  | some config =>
    if config.count ≤ 0 ∨ config.spacingMm ≤ 0 ∨ config.lengthMm ≤ 0 then ⟨[], []⟩
    else
      let angle := atan2 (directionPoint.y - start.y) (directionPoint.x - start.x)
      let perpAngle := angle + Real.pi / 2
      let pxPerMm := pxPerMmOf pixelsPerMeter
      let lengthPx := config.lengthMm * pxPerMm
      let spacingPx := config.spacingMm * pxPerMm
      if abs spacingPx < 0.1 ∨ abs lengthPx > 50000 then ⟨[], []⟩
      else
        let dx := Real.cos angle
        let dy := Real.sin angle
        let pdx := Real.cos perpAngle
        let pdy := Real.sin perpAngle
        let safeCount := min config.count 100
        let idxs := List.range (⌈safeCount⌉).toNat
        let lineAt := fun (i : ℕ) =>
          let ox := start.x + pdx * spacingPx * i
          let oy := start.y + pdy * spacingPx * i
          ((⟨ox, oy⟩ : Point), (⟨ox + dx * lengthPx, oy + dy * lengthPx⟩ : Point))
        let labelText := fun (i : ℕ) =>
          getNextLabel (if config.startLabel = "" then "1" else config.startLabel)
            i config.reverse
        ⟨idxs.map lineAt,
         idxs.flatMap fun i =>
           ⟨(lineAt i).1, labelText i⟩ ::
             (if config.bothEnds then [⟨(lineAt i).2, labelText i⟩] else [])⟩

/-- One ruler calibration sample `{ pixels, meters }` (`src/types.ts`). -/
structure CalibrationItem where
  pixels : ℝ
  meters : ℝ

/-- The fields of a `Sheet` read by the `pixelsPerMeter` memo. -/
structure SheetModel where
  coordRefs : List CoordinateReference
  calibrationData : List CalibrationItem

/-- The `Σ pixels` over the calibration samples of a sheet. -/
def totalCalibPixels (sheet : SheetModel) : ℝ :=
  sheet.calibrationData.foldl (fun sum item => sum + item.pixels) 0

/-- The `Σ meters` over the calibration samples of a sheet. -/
def totalCalibMeters (sheet : SheetModel) : ℝ :=
  sheet.calibrationData.foldl (fun sum item => sum + item.meters) 0

/-- The `pixelsPerMeter` memo of the main editor component: with exactly two
coordinate references at positive world distance, the two-point scale
`dPx / dWorld`; otherwise, with calibration samples of positive total meters,
the ratio of sums `Σ pixels / Σ meters`; otherwise `null`. -/
def pixelsPerMeter (sheet : SheetModel) : Option ℝ :=
  let fromCalib : Option ℝ :=
    if 0 < sheet.calibrationData.length then
      if 0 < totalCalibMeters sheet then
        some (totalCalibPixels sheet / totalCalibMeters sheet)
      else none
    else none
  match sheet.coordRefs with
  | [p1, p2] =>
    let dPx := Real.sqrt ((p2.pixel.x - p1.pixel.x) ^ 2 + (p2.pixel.y - p1.pixel.y) ^ 2)
    let dWorld := Real.sqrt ((p2.world.x - p1.world.x) ^ 2 + (p2.world.y - p1.world.y) ^ 2)
    if 0 < dWorld then some (dPx / dWorld) else fromCalib
  | _ => fromCalib

end

/-- C9: the degenerate zero-length segment is handled totally:
`getClosestPointOnSegment p a a` returns `a` (the guarded projection parameter
is 0) and `pointToLineDistance p a a` is the Euclidean distance from `p` to
`a` (the guard leaves the sentinel `param = -1`, selecting the endpoint). -/
theorem degenerate_segment_total (p a : Point) :
    getClosestPointOnSegment p a a = a ∧ pointToLineDistance p a a = getDistance p a := by
  obtain ⟨px, py⟩ := p
  obtain ⟨ax, ay⟩ := a
  constructor
  · simp [getClosestPointOnSegment]
  · simp only [pointToLineDistance, getDistance]
    norm_num
    congr 1
    ring

/-- C9 witness: the general statement applied at `p = (3, 4)`, `a = (1, 1)`. -/
theorem degenerate_segment_total_witness :
    getClosestPointOnSegment ⟨3, 4⟩ ⟨1, 1⟩ ⟨1, 1⟩ = (⟨1, 1⟩ : Point) ∧
      pointToLineDistance ⟨3, 4⟩ ⟨1, 1⟩ ⟨1, 1⟩ = getDistance ⟨3, 4⟩ ⟨1, 1⟩ :=
  degenerate_segment_total ⟨3, 4⟩ ⟨1, 1⟩

/-- C2: drawing the square ring `(0,0),(10,0),(10,10),(0,10)` and closing back
to `(0,0)` is never flagged by `checkPolygonSelfIntersection`, while the
crossing sequence `(0,0),(10,10),(10,0),(0,10)` (closing back to `(0,0)`) is
flagged on the insertion of `(0,10)`. -/
theorem self_intersection_flagging :
    (checkPolygonSelfIntersection [⟨0,0⟩] ⟨10,0⟩ = false ∧
     checkPolygonSelfIntersection [⟨0,0⟩, ⟨10,0⟩] ⟨10,10⟩ = false ∧
     checkPolygonSelfIntersection [⟨0,0⟩, ⟨10,0⟩, ⟨10,10⟩] ⟨0,10⟩ = false ∧
     checkPolygonSelfIntersection [⟨0,0⟩, ⟨10,0⟩, ⟨10,10⟩, ⟨0,10⟩] ⟨0,0⟩ = false) ∧
    (checkPolygonSelfIntersection [⟨0,0⟩, ⟨10,10⟩, ⟨10,0⟩] ⟨0,10⟩ = true ∨
     checkPolygonSelfIntersection [⟨0,0⟩, ⟨10,10⟩, ⟨10,0⟩, ⟨0,10⟩] ⟨0,0⟩ = true) := by
  refine ⟨⟨?_, ?_, ?_, ?_⟩, Or.inl ?_⟩ <;>
    norm_num [checkPolygonSelfIntersection, segmentsCross, orientation, ptAt, List.range']

/-- C6: when the two-point coordinate transform is not active (not exactly two
references, or the two references at zero world distance) and there is at
least one calibration sample with positive total meters, `pixelsPerMeter` is
the ratio of sums `Σ pixels / Σ meters`. -/
theorem pixelsPerMeter_ratio_of_sums (sheet : SheetModel)
    (href : sheet.coordRefs.length ≠ 2 ∨
      ∀ r1 r2, sheet.coordRefs = [r1, r2] →
        Real.sqrt ((r2.world.x - r1.world.x) ^ 2 + (r2.world.y - r1.world.y) ^ 2) = 0)
    (hlen : 0 < sheet.calibrationData.length)
    (hm : 0 < totalCalibMeters sheet) :
    pixelsPerMeter sheet = some (totalCalibPixels sheet / totalCalibMeters sheet) := by
  unfold pixelsPerMeter
  rcases hl : sheet.coordRefs with _ | ⟨r1, _ | ⟨r2, _ | ⟨r3, t⟩⟩⟩
  · simp [hlen, hm]
  · simp [hlen, hm]
  · rcases href with h2 | h0
    · exact absurd (by rw [hl]; rfl) h2
    · have hz := h0 r1 r2 hl
      simp [hz, hlen, hm]
  · simp [hlen, hm]

/-- C6 witness: a sheet with no coordinate references and the single
calibration sample `{pixels: 50, meters: 10}` yields scale `5`. -/
theorem pixelsPerMeter_ratio_of_sums_witness :
    pixelsPerMeter ⟨[], [⟨50, 10⟩]⟩ =
      some (totalCalibPixels ⟨[], [⟨50, 10⟩]⟩ / totalCalibMeters ⟨[], [⟨50, 10⟩]⟩) :=
  pixelsPerMeter_ratio_of_sums ⟨[], [⟨50, 10⟩]⟩ (Or.inl (by simp))
    (by simp) (by norm_num [totalCalibMeters])

/-- C3: with references `{pixel:(0,0), world:(0,0)}` and
`{pixel:(100,0), world:(10,0)}`, `transformPointToWorld` maps `(50,0)` to
world `(5,0)` and `(100,100)` to world `(10,10)`, consistently with the
derived scale `0.1` and rotation `0`. -/
theorem calibration_round_trip :
    (transformPointToWorld ⟨50, 0⟩ ⟨⟨0,0⟩, ⟨0,0,none⟩⟩ ⟨⟨100,0⟩, ⟨10,0,none⟩⟩).x = 5 ∧
    (transformPointToWorld ⟨50, 0⟩ ⟨⟨0,0⟩, ⟨0,0,none⟩⟩ ⟨⟨100,0⟩, ⟨10,0,none⟩⟩).y = 0 ∧
    (transformPointToWorld ⟨100, 100⟩ ⟨⟨0,0⟩, ⟨0,0,none⟩⟩ ⟨⟨100,0⟩, ⟨10,0,none⟩⟩).x = 10 ∧
    (transformPointToWorld ⟨100, 100⟩ ⟨⟨0,0⟩, ⟨0,0,none⟩⟩ ⟨⟨100,0⟩, ⟨10,0,none⟩⟩).y = 10 ∧
    Real.sqrt ((10:ℝ) * 10 + 0 * 0) / Real.sqrt ((100:ℝ) * 100 + 0 * 0) = 0.1 ∧
    atan2 0 10 - atan2 0 100 = 0 := by
  have h100 : Real.sqrt (10000 : ℝ) = 100 := by
    rw [show (10000:ℝ) = 100 ^ 2 by norm_num]
    exact Real.sqrt_sq (by norm_num)
  have h10 : Real.sqrt (100 : ℝ) = 10 := by
    rw [show (100:ℝ) = 10 ^ 2 by norm_num]
    exact Real.sqrt_sq (by norm_num)
  have hat100 : atan2 0 100 = 0 := by norm_num [atan2, Real.arctan_zero]
  have hat10 : atan2 0 10 = 0 := by norm_num [atan2, Real.arctan_zero]
  refine ⟨?_, ?_, ?_, ?_, ?_, ?_⟩ <;>
    norm_num [transformPointToWorld, h100, h10, hat100, hat10,
      Real.cos_zero, Real.sin_zero]

/-- C7: for any origin, direction and pixel scale, and any positive spacing and
length whose derived pixel spacing is at least 0.1 and pixel length at most
50000, the axis generator with `count = 3` produces labels `A, B, C` (start
`"A"`, forward) resp. `5, 4, 3` (start `"5"`, reversed), one per line in line
order. -/
theorem axis_label_sequence (start dir : Point) (ppm : Option ℝ)
    (spacingMm lengthMm : ℝ) (hs : 0 < spacingMm) (hl : 0 < lengthMm)
    (hsp : 0.1 ≤ spacingMm * pxPerMmOf ppm)
    (hlp : lengthMm * pxPerMmOf ppm ≤ 50000) :
    ((getAxisSystemPoints start dir (some ⟨spacingMm, 3, "A", lengthMm, false, false⟩)
        ppm).labels.map AxisLabel.text = ["A", "B", "C"] ∧
      (getAxisSystemPoints start dir (some ⟨spacingMm, 3, "A", lengthMm, false, false⟩)
        ppm).lines.length = 3) ∧
    ((getAxisSystemPoints start dir (some ⟨spacingMm, 3, "5", lengthMm, false, true⟩)
        ppm).labels.map AxisLabel.text = ["5", "4", "3"] ∧
      (getAxisSystemPoints start dir (some ⟨spacingMm, 3, "5", lengthMm, false, true⟩)
        ppm).lines.length = 3) := by
  have hm : 0 < pxPerMmOf ppm := by
    by_contra hneg
    push_neg at hneg
    nlinarith [mul_nonpos_of_nonneg_of_nonpos hs.le hneg]
  have hspx : ¬ (abs (spacingMm * pxPerMmOf ppm) < 0.1 ∨
      abs (lengthMm * pxPerMmOf ppm) > 50000) := by
    push_neg
    constructor
    · rw [abs_of_pos (by positivity)]; linarith
    · rw [abs_of_pos (by positivity)]; linarith
  have hceil : ((⌈min (3:ℝ) 100⌉).toNat) = 3 := by
    rw [show min (3:ℝ) 100 = ((3:ℤ):ℝ) by norm_num, Int.ceil_intCast]
    rfl
  have hguard : ¬ ((3:ℝ) ≤ 0 ∨ spacingMm ≤ 0 ∨ lengthMm ≤ 0) := by
    push_neg
    exact ⟨by norm_num, hs, hl⟩
  constructor <;>
  · constructor <;>
    · simp only [getAxisSystemPoints, hceil, if_neg hguard, if_neg hspx]
      simp [List.range_succ, getNextLabel, parseIntJS, digitsVal, charCodeAt0,
        fromCharCodeJS]
      try exact ⟨by decide, by decide, by decide⟩

/-- C7 witness: the label sequences at origin `(0,0)`, direction `(1,0)`,
uncalibrated scale and 1 mm spacing and length. -/
theorem axis_label_sequence_witness :
    (getAxisSystemPoints ⟨0,0⟩ ⟨1,0⟩ (some ⟨1, 3, "A", 1, false, false⟩)
        none).labels.map AxisLabel.text = ["A", "B", "C"] ∧
    (getAxisSystemPoints ⟨0,0⟩ ⟨1,0⟩ (some ⟨1, 3, "5", 1, false, true⟩)
        none).labels.map AxisLabel.text = ["5", "4", "3"] :=
  ⟨(axis_label_sequence ⟨0,0⟩ ⟨1,0⟩ none 1 1 (by norm_num) (by norm_num)
      (by norm_num [pxPerMmOf]) (by norm_num [pxPerMmOf])).1.1,
   (axis_label_sequence ⟨0,0⟩ ⟨1,0⟩ none 1 1 (by norm_num) (by norm_num)
      (by norm_num [pxPerMmOf]) (by norm_num [pxPerMmOf])).2.1⟩

/-- C8 counterexample: with a negative pixel scale (`pixelsPerMeter =
-1000000`), the derived pixel spacing `1 * (-1000)` is below 0.1, yet
`getAxisSystemPoints` still emits a line: the source guards on the absolute
value `Math.abs(spacingPx) < 0.1`, not on `spacingPx < 0.1` as claimed. -/
theorem axis_spacing_guard_counterexample :
    (1 : ℝ) * pxPerMmOf (some (-1000000)) < 0.1 ∧
    (getAxisSystemPoints ⟨0,0⟩ ⟨1,0⟩ (some ⟨1, 1, "1", 1, false, false⟩)
        (some (-1000000))).lines.length = 1 := by
  have hpx : pxPerMmOf (some (-1000000)) = -1000 := by norm_num [pxPerMmOf]
  constructor
  · rw [hpx]; norm_num
  · have hceil : ((⌈min (1:ℝ) 100⌉).toNat) = 1 := by
      rw [show min (1:ℝ) 100 = ((1:ℤ):ℝ) by norm_num, Int.ceil_intCast]
      rfl
    simp only [getAxisSystemPoints, hpx, hceil]
    rw [if_neg (by push_neg; norm_num), if_neg (by push_neg; norm_num)]
    simp [List.range_succ]

/-- C8 amended: the empty-result guards of `getAxisSystemPoints` fire for
non-positive `count`, `spacingMm` or `lengthMm`, and for an *absolute* derived
pixel spacing below 0.1 or *absolute* pixel length above 50000; at most 100
lines are ever emitted; and `getClosestGridPoint` is `null` for an invisible
grid or a pixel step below 2. -/
theorem axis_grid_defensive_guards (start dir p : Point) (cfg : AxisConfig)
    (ppm ppm2 : Option ℝ) (grid : GridConfig) :
    (cfg.count ≤ 0 ∨ cfg.spacingMm ≤ 0 ∨ cfg.lengthMm ≤ 0 →
      getAxisSystemPoints start dir (some cfg) ppm = ⟨[], []⟩) ∧
    (abs (cfg.spacingMm * pxPerMmOf ppm) < 0.1 ∨
        abs (cfg.lengthMm * pxPerMmOf ppm) > 50000 →
      getAxisSystemPoints start dir (some cfg) ppm = ⟨[], []⟩) ∧
    (getAxisSystemPoints start dir (some cfg) ppm).lines.length ≤ 100 ∧
    (grid.visible = false ∨ grid.sizeMm * pxPerMmOf ppm2 < 2 →
      getClosestGridPoint p grid ppm2 = none) := by
  have hcount : ((⌈min cfg.count 100⌉).toNat) ≤ 100 := by
    have h1 : ⌈min cfg.count 100⌉ ≤ (100 : ℤ) := by
      rw [Int.ceil_le]
      push_cast
      exact min_le_right _ _
    exact Int.toNat_le.mpr h1
  refine ⟨?_, ?_, ?_, ?_⟩
  · intro h
    simp only [getAxisSystemPoints, if_pos h]
  · intro h
    by_cases h0 : cfg.count ≤ 0 ∨ cfg.spacingMm ≤ 0 ∨ cfg.lengthMm ≤ 0
    · simp only [getAxisSystemPoints, if_pos h0]
    · simp only [getAxisSystemPoints, if_neg h0, if_pos h]
  · by_cases h0 : cfg.count ≤ 0 ∨ cfg.spacingMm ≤ 0 ∨ cfg.lengthMm ≤ 0
    · simp [getAxisSystemPoints, if_pos h0]
    · by_cases h1 : abs (cfg.spacingMm * pxPerMmOf ppm) < 0.1 ∨
          abs (cfg.lengthMm * pxPerMmOf ppm) > 50000
      · simp [getAxisSystemPoints, if_neg h0, if_pos h1]
      · simpa [getAxisSystemPoints, if_neg h0, if_neg h1] using hcount
  · intro h
    rcases h with h | h
    · simp [getClosestGridPoint, h]
    · by_cases hv : grid.visible = false
      · simp [getClosestGridPoint, hv]
      · simp only [getClosestGridPoint, if_neg hv]
        rw [if_pos h]

/-- C8 witness for the amended claim: a zero `count` yields the empty result,
and an invisible grid yields `null`. -/
theorem axis_grid_defensive_guards_witness :
    getAxisSystemPoints ⟨0,0⟩ ⟨1,0⟩ (some ⟨1, 0, "A", 1, false, false⟩) none = ⟨[], []⟩ ∧
    getClosestGridPoint ⟨0,0⟩ ⟨false, 1000, 0, 0⟩ none = none :=
  ⟨(axis_grid_defensive_guards ⟨0,0⟩ ⟨1,0⟩ ⟨0,0⟩ ⟨1, 0, "A", 1, false, false⟩ none none
      ⟨false, 1000, 0, 0⟩).1 (Or.inl (by norm_num)),
   (axis_grid_defensive_guards ⟨0,0⟩ ⟨1,0⟩ ⟨0,0⟩ ⟨1, 0, "A", 1, false, false⟩ none none
      ⟨false, 1000, 0, 0⟩).2.2.2 (Or.inl rfl)⟩

/-- The loop `reduceAngleDown` is the identity once the angle is at most 90. -/
theorem reduceAngleDown_of_not_gt (a : ℝ) (h : ¬ a > 90) : reduceAngleDown a = a := by
  rw [reduceAngleDown]
  simp [h]

/-- The loop `reduceAngleUp` is the identity once the angle is at least -90. -/
theorem reduceAngleUp_of_not_lt (a : ℝ) (h : ¬ a < -90) : reduceAngleUp a = a := by
  rw [reduceAngleUp]
  simp [h]

/-- C5 counterexample: the triangle `(0,0), (10,10), (0,13)` has a bounding
box noticeably taller than wide (13 > 1.2 · 10), yet `getPolygonLabelStats`
returns rotation 45° (the angle of its longest edge `(0,0) → (10,10)`), not
the claimed −90°: the edge-derived rotation overwrites the bounding-box
default unconditionally. -/
theorem label_rotation_bbox_counterexample :
    (getBoundingBox [⟨0,0⟩, ⟨10,10⟩, ⟨0,13⟩]).height >
      (getBoundingBox [⟨0,0⟩, ⟨10,10⟩, ⟨0,13⟩]).width * 1.2 ∧
    (getPolygonLabelStats [⟨0,0⟩, ⟨10,10⟩, ⟨0,13⟩]).rotation = 45 := by
  have hangle : getPolygonPrimaryAngle [⟨0,0⟩, ⟨10,10⟩, ⟨0,13⟩] = Real.pi / 4 := by
    have h200 : (0 : ℝ) < Real.sqrt 200 := Real.sqrt_pos.mpr (by norm_num)
    have h109 : ¬ Real.sqrt 109 > Real.sqrt 200 := by
      simp only [not_lt]
      exact Real.sqrt_le_sqrt (by norm_num)
    have h169 : ¬ Real.sqrt 169 > Real.sqrt 200 := by
      simp only [not_lt]
      exact Real.sqrt_le_sqrt (by norm_num)
    have e1 : getDistance (⟨0,0⟩ : Point) ⟨10,10⟩ = Real.sqrt 200 := by
      norm_num [getDistance]
    have e2 : getDistance (⟨10,10⟩ : Point) ⟨0,13⟩ = Real.sqrt 109 := by
      norm_num [getDistance]
    have e3 : getDistance (⟨0,13⟩ : Point) ⟨0,0⟩ = Real.sqrt 169 := by
      norm_num [getDistance]
    have hat : atan2 10 10 = Real.pi / 4 := by
      norm_num [atan2, Real.arctan_one]
    simp [getPolygonPrimaryAngle, cyclicPairs, List.rotate, e1, e2, e3, h200, h109,
      h169, hat]
  constructor
  · norm_num [getBoundingBox, listMin, listMax]
  · have hdeg : getPolygonPrimaryAngle [⟨0,0⟩, ⟨10,10⟩, ⟨0,13⟩] * 180 / Real.pi = 45 := by
      rw [hangle]
      field_simp
      ring
    simp only [getPolygonLabelStats]
    rw [if_neg (by norm_num)]
    simp only [List.length_cons, List.length_nil, hdeg]
    rw [if_pos (by norm_num)]
    rw [reduceAngleDown_of_not_gt 45 (by norm_num), reduceAngleUp_of_not_lt 45 (by norm_num)]
    norm_num

/-- C5 amended: for every polygon with at least 3 vertices the rotation of
`getPolygonLabelStats` is the longest-edge-derived value (normalized into
`[-90°, 90°]` and snapped within 10° of 0° resp. ±90°); the bounding-box
"taller than wide ⇒ −90°" default is dead code, overwritten by this value. -/
theorem label_rotation_from_longest_edge (points : List Point)
    (h : 3 ≤ points.length) :
    (getPolygonLabelStats points).rotation = specRotationFromLongestEdge points := by
  have h3 : ¬ points.length < 3 := by omega
  simp [getPolygonLabelStats, specRotationFromLongestEdge, h3, h]

/-- C5 witness for the amended claim: the right triangle
`(0,0), (1,0), (0,1)`. -/
theorem label_rotation_from_longest_edge_witness :
    (getPolygonLabelStats [⟨0,0⟩, ⟨1,0⟩, ⟨0,1⟩]).rotation =
      specRotationFromLongestEdge [⟨0,0⟩, ⟨1,0⟩, ⟨0,1⟩] :=
  label_rotation_from_longest_edge [⟨0,0⟩, ⟨1,0⟩, ⟨0,1⟩] (by norm_num)

/-- Folding over a `flatMap` is the nested fold. -/
theorem foldl_flatMap {α β γ : Type} (g : α → List β) (f : γ → β → γ)
    (l : List α) (init : γ) :
    (l.flatMap g).foldl f init = l.foldl (fun st a => (g a).foldl f st) init := by
  induction l generalizing init with
  | nil => rfl
  | cons a t ih => simp [List.flatMap_cons, List.foldl_append, ih]

/-- The nested loops of the vertex phase visit exactly `vertexPairs`. -/
theorem vertexSnapPhase_eq_foldPairs (movingPoints : List Point)
    (shapes : List Shape) (threshold : ℝ) :
    vertexSnapPhase movingPoints shapes threshold =
      (vertexPairs movingPoints shapes).foldl
        (fun st p => vertexSnapStep p.1 st p.2) ⟨threshold, 0, 0, none, false⟩ := by
  unfold vertexSnapPhase vertexPairs
  simp only [foldl_flatMap, List.foldl_map]

/-- After the vertex fold, `minDst` is at most its initial value and at most
the distance of every visited pair. -/
theorem vertexFold_minDst_le (pairs : List (Point × Point)) (st : SnapState) :
    (pairs.foldl (fun st p => vertexSnapStep p.1 st p.2) st).minDst ≤ st.minDst ∧
    ∀ p ∈ pairs,
      (pairs.foldl (fun st p => vertexSnapStep p.1 st p.2) st).minDst ≤
        getDistance p.1 p.2 := by
  induction pairs generalizing st with
  | nil => exact ⟨le_refl _, by simp⟩
  | cons q t ih =>
    have hstep : (vertexSnapStep q.1 st q.2).minDst ≤ st.minDst ∧
        (vertexSnapStep q.1 st q.2).minDst ≤ getDistance q.1 q.2 := by
      unfold vertexSnapStep
      by_cases hd : getDistance q.1 q.2 < st.minDst
      · rw [if_pos hd]
        exact ⟨le_of_lt hd, le_refl _⟩
      · rw [if_neg hd]
        exact ⟨le_refl _, le_of_not_lt hd⟩
    obtain ⟨ih1, ih2⟩ := ih (vertexSnapStep q.1 st q.2)
    refine ⟨le_trans ih1 hstep.1, ?_⟩
    intro p hp
    rcases List.mem_cons.mp hp with rfl | hp
    · exact le_trans ih1 hstep.2
    · exact ih2 p hp

/-- After the vertex fold, either nothing was updated or the final state is
exactly the record of some visited pair (with `found` set). -/
theorem vertexFold_provenance (pairs : List (Point × Point)) (st : SnapState) :
    pairs.foldl (fun st p => vertexSnapStep p.1 st p.2) st = st ∨
    ∃ p ∈ pairs,
      (pairs.foldl (fun st p => vertexSnapStep p.1 st p.2) st).found = true ∧
      (pairs.foldl (fun st p => vertexSnapStep p.1 st p.2) st).snapPoint = some p.2 ∧
      (pairs.foldl (fun st p => vertexSnapStep p.1 st p.2) st).snapX = p.2.x - p.1.x ∧
      (pairs.foldl (fun st p => vertexSnapStep p.1 st p.2) st).snapY = p.2.y - p.1.y ∧
      (pairs.foldl (fun st p => vertexSnapStep p.1 st p.2) st).minDst =
        getDistance p.1 p.2 := by
  induction pairs generalizing st with
  | nil => exact Or.inl rfl
  | cons q t ih =>
    simp only [List.foldl_cons]
    by_cases hd : getDistance q.1 q.2 < st.minDst
    · have hstep : vertexSnapStep q.1 st q.2 =
          ⟨getDistance q.1 q.2, q.2.x - q.1.x, q.2.y - q.1.y, some q.2, true⟩ := by
        unfold vertexSnapStep
        rw [if_pos hd]
      rcases ih (vertexSnapStep q.1 st q.2) with heq | ⟨p, hp, hprops⟩
      · refine Or.inr ⟨q, List.mem_cons_self _ _, ?_⟩
        rw [heq, hstep]
        exact ⟨rfl, rfl, rfl, rfl, rfl⟩
      · exact Or.inr ⟨p, List.mem_cons_of_mem _ hp, hprops⟩
    · have hstep : vertexSnapStep q.1 st q.2 = st := by
        unfold vertexSnapStep
        rw [if_neg hd]
      rw [hstep]
      rcases ih st with heq | ⟨p, hp, hprops⟩
      · exact Or.inl heq
      · exact Or.inr ⟨p, List.mem_cons_of_mem _ hp, hprops⟩

/-- Membership in `vertexPairs` over the filtered shape list. -/
theorem mem_vertexPairs (movingPoints : List Point) (staticShapes : List Shape)
    (mp sp : Point) :
    (mp, sp) ∈ vertexPairs movingPoints (staticShapes.filter isSnapTargetType) ↔
      mp ∈ movingPoints ∧ ∃ s ∈ staticShapes, isSnapTargetType s = true ∧
        sp ∈ s.points := by
  simp only [vertexPairs, List.mem_flatMap, List.mem_map, List.mem_filter,
    Prod.mk.injEq]
  constructor
  · rintro ⟨mp2, hmp2, s, ⟨hs, hvalid⟩, sp2, hsp2, rfl, rfl⟩
    exact ⟨hmp2, s, hs, hvalid, hsp2⟩
  · rintro ⟨hmp, s, hs, hvalid, hsp⟩
    exact ⟨mp, hmp, s, ⟨hs, hvalid⟩, sp, hsp, rfl, rfl⟩

/-- C4: if some moving point is within the threshold of some vertex of a
valid (polygon / rectangle / square) static shape, `calculateSnapCorrection`
returns the vertex-phase result (the edge phase is never consulted), and its
snap point and delta are those of a minimum-distance moving-point /
static-vertex pair. -/
theorem snap_vertex_priority (movingPoints : List Point)
    (staticShapes : List Shape) (threshold : ℝ)
    (h : ∃ mp ∈ movingPoints, ∃ s ∈ staticShapes, isSnapTargetType s = true ∧
      ∃ sp ∈ s.points, getDistance mp sp < threshold) :
    calculateSnapCorrection movingPoints staticShapes threshold =
      vertexOnlyResult movingPoints staticShapes threshold ∧
    ∃ mp ∈ movingPoints, ∃ s ∈ staticShapes, isSnapTargetType s = true ∧
      ∃ sp ∈ s.points,
        (calculateSnapCorrection movingPoints staticShapes threshold).snapPoint =
          some sp ∧
        (calculateSnapCorrection movingPoints staticShapes threshold).delta =
          ⟨sp.x - mp.x, sp.y - mp.y⟩ ∧
        ∀ mp2 ∈ movingPoints, ∀ s2 ∈ staticShapes, isSnapTargetType s2 = true →
          ∀ sp2 ∈ s2.points, getDistance mp sp ≤ getDistance mp2 sp2 := by
  obtain ⟨mp0, hmp0, s0, hs0, hvalid0, sp0, hsp0, hdist0⟩ := h
  have hpair0 : (mp0, sp0) ∈
      vertexPairs movingPoints (staticShapes.filter isSnapTargetType) :=
    (mem_vertexPairs _ _ _ _).mpr ⟨hmp0, s0, hs0, hvalid0, hsp0⟩
  set pairs := vertexPairs movingPoints (staticShapes.filter isSnapTargetType)
    with hpairs
  set st1 := vertexSnapPhase movingPoints (staticShapes.filter isSnapTargetType)
    threshold with hst1
  have hflat : st1 = pairs.foldl (fun st p => vertexSnapStep p.1 st p.2)
      ⟨threshold, 0, 0, none, false⟩ := vertexSnapPhase_eq_foldPairs _ _ _
  have hle := vertexFold_minDst_le pairs ⟨threshold, 0, 0, none, false⟩
  have hprov := vertexFold_provenance pairs ⟨threshold, 0, 0, none, false⟩
  rcases hprov with heq | ⟨p, hp, hfound, hsnap, hsx, hsy, hmin⟩
  · exfalso
    have h1 := hle.2 (mp0, sp0) hpair0
    rw [← hflat] at h1
    rw [← hflat] at heq
    rw [heq] at h1
    exact absurd (lt_of_le_of_lt h1 hdist0) (lt_irrefl _)
  · rw [← hflat] at hfound hsnap hsx hsy hmin
    have hresult : calculateSnapCorrection movingPoints staticShapes threshold =
        ⟨⟨st1.snapX, st1.snapY⟩, st1.snapPoint⟩ := by
      simp only [calculateSnapCorrection]
      rw [← hst1, if_pos hfound]
    have hvor : vertexOnlyResult movingPoints staticShapes threshold =
        ⟨⟨st1.snapX, st1.snapY⟩, st1.snapPoint⟩ := by
      simp only [vertexOnlyResult]
    refine ⟨by rw [hresult, hvor], ?_⟩
    obtain ⟨hmpmem, s, hsmem, hsvalid, hspmem⟩ :=
      (mem_vertexPairs movingPoints staticShapes p.1 p.2).mp hp
    refine ⟨p.1, hmpmem, s, hsmem, hsvalid, p.2, hspmem, ?_, ?_, ?_⟩
    · rw [hresult]
      exact hsnap
    · rw [hresult]
      simp only
      rw [hsx, hsy]
    · intro mp2 hmp2 s2 hs2 hvalid2 sp2 hsp2
      have hpair2 : (mp2, sp2) ∈ pairs :=
        (mem_vertexPairs _ _ _ _).mpr ⟨hmp2, s2, hs2, hvalid2, hsp2⟩
      have h2 := hle.2 (mp2, sp2) hpair2
      rw [← hflat] at h2
      rw [hmin] at h2
      exact h2

/-- C4 witness: the moving point `(0,0)` coincides with the first vertex of
the static triangle `(0,0), (3,0), (0,4)` (distance 0 < threshold 1), so the
vertex phase answers. -/
theorem snap_vertex_priority_witness :
    calculateSnapCorrection [⟨0,0⟩] [⟨ShapeType.polygon, [⟨0,0⟩, ⟨3,0⟩, ⟨0,4⟩]⟩] 1 =
      vertexOnlyResult [⟨0,0⟩] [⟨ShapeType.polygon, [⟨0,0⟩, ⟨3,0⟩, ⟨0,4⟩]⟩] 1 :=
  (snap_vertex_priority [⟨0,0⟩] [⟨ShapeType.polygon, [⟨0,0⟩, ⟨3,0⟩, ⟨0,4⟩]⟩] 1
    ⟨⟨0,0⟩, by simp, ⟨ShapeType.polygon, [⟨0,0⟩, ⟨3,0⟩, ⟨0,4⟩]⟩, by simp, by decide,
      ⟨0,0⟩, by simp, by norm_num [getDistance]⟩).1

/-- C1: for the moving unit square and the static unit square offset by
`(0.5, 0)`, `calculateMTV` returns a vector of magnitude 0.5 (the x-overlap)
and translating the moving square by it makes `doPolygonsIntersect` false. -/
theorem mtv_separates_unit_squares :
    ∃ v : Point,
      calculateMTV [⟨0,0⟩, ⟨1,0⟩, ⟨1,1⟩, ⟨0,1⟩]
        [⟨0.5,0⟩, ⟨1.5,0⟩, ⟨1.5,1⟩, ⟨0.5,1⟩] = some v ∧
      Real.sqrt (v.x ^ 2 + v.y ^ 2) = 0.5 ∧
      doPolygonsIntersect
        ([⟨0,0⟩, ⟨1,0⟩, ⟨1,1⟩, ⟨0,1⟩].map fun p : Point =>
          (⟨p.x + v.x, p.y + v.y⟩ : Point))
        [⟨0.5,0⟩, ⟨1.5,0⟩, ⟨1.5,1⟩, ⟨0.5,1⟩] = false := by
  refine ⟨⟨-(1/2), 0⟩, ?_, ?_, ?_⟩
  · have hedges : getEdges [(⟨0,0⟩ : Point), ⟨1,0⟩, ⟨1,1⟩, ⟨0,1⟩] ++
        getEdges [(⟨0.5,0⟩ : Point), ⟨1.5,0⟩, ⟨1.5,1⟩, ⟨0.5,1⟩] =
        [⟨1,0⟩, ⟨0,1⟩, ⟨-1,0⟩, ⟨0,-1⟩, ⟨1,0⟩, ⟨0,1⟩, ⟨-1,0⟩, ⟨0,-1⟩] := by
      norm_num [getEdges, cyclicPairs, List.rotate]
    have hsat : satLoop [(⟨0,0⟩ : Point), ⟨1,0⟩, ⟨1,1⟩, ⟨0,1⟩]
        [(⟨0.5,0⟩ : Point), ⟨1.5,0⟩, ⟨1.5,1⟩, ⟨0.5,1⟩]
        [⟨1,0⟩, ⟨0,1⟩, ⟨-1,0⟩, ⟨0,-1⟩, ⟨1,0⟩, ⟨0,1⟩, ⟨-1,0⟩, ⟨0,-1⟩] none =
        some (some (1/2, ⟨-1,0⟩)) := by
      norm_num [satLoop, normalize, perpendicular, projectPolygon, Real.sqrt_one,
        min_def, max_def]
    simp only [calculateMTV, hedges, hsat]
    norm_num [getCentroid]
  · rw [show (-(1/2) : ℝ) ^ 2 + (0:ℝ) ^ 2 = (1/2) ^ 2 by norm_num]
    rw [Real.sqrt_sq (by norm_num)]
    norm_num
  · norm_num [doPolygonsIntersect, scalePolygon, getCentroid, cyclicPairs,
      List.rotate, orientation, isPointInPolygon, listMin, listMax, ptAt,
      min_def, max_def]

/-- A fold whose step fixes the initial state leaves it unchanged. -/
theorem foldl_fixed {σ α : Type} (f : σ → α → σ) (l : List α) (st : σ)
    (h : ∀ a ∈ l, f st a = st) : l.foldl f st = st := by
  induction l with
  | nil => rfl
  | cons a t ih =>
    rw [List.foldl_cons, h a (List.mem_cons_self _ _)]
    exact ih fun b hb => h b (List.mem_cons_of_mem _ hb)

/-- Derives `b ≤ √a` from `b² ≤ a` for nonnegative `b`. -/
theorem le_sqrt_of_sq_le (a b : ℝ) (hb : 0 ≤ b) (h : b ^ 2 ≤ a) :
    b ≤ Real.sqrt a := by
  have h2 : Real.sqrt (b ^ 2) ≤ Real.sqrt a := Real.sqrt_le_sqrt h
  rwa [Real.sqrt_sq hb] at h2

/-- An MTV pass over static polygons that none intersect does nothing and
reports no overlap. -/
theorem overlapPass_of_no_overlap (poly : List Point) :
    ∀ statics : List (List Point),
      (∀ sp ∈ statics, doPolygonsIntersect poly sp = false) →
      overlapPass statics poly = (poly, false) := by
  intro statics
  induction statics with
  | nil => intro _; rfl
  | cons s t ih =>
    intro h
    have hs : doPolygonsIntersect poly s = false := h s (List.mem_cons_self _ _)
    have ht := ih fun sp hsp => h sp (List.mem_cons_of_mem _ hsp)
    unfold overlapPass at ht ⊢
    rw [List.foldl_cons]
    simp only [hs, Bool.false_eq_true, if_false]
    exact ht

/-- The bounded resolution loop is the identity when nothing overlaps. -/
theorem resolveLoop_of_no_overlap (poly : List Point)
    (statics : List (List Point)) (n : ℕ)
    (h : ∀ sp ∈ statics, doPolygonsIntersect poly sp = false) :
    resolveLoop statics (n + 1) poly = poly := by
  simp only [resolveLoop, overlapPass_of_no_overlap poly statics h,
    Bool.false_eq_true, if_false]

/-- The vertex snap is the identity when every vertex keeps distance at least
`threshold` from all static vertices and from its closest points on all
static edges. -/
theorem snapVerticesToEdges_id (poly : List Point)
    (statics : List (List Point)) (threshold : ℝ)
    (hVtx : ∀ v ∈ poly, ∀ sp ∈ statics, ∀ sv ∈ sp,
      threshold ≤ Real.sqrt ((v.x - sv.x) ^ 2 + (v.y - sv.y) ^ 2))
    (hEdge : ∀ v ∈ poly, ∀ sp ∈ statics, ∀ pq ∈ cyclicPairs sp,
      threshold ≤ Real.sqrt
        ((v.x - (getClosestPointOnSegment v pq.1 pq.2).x) ^ 2 +
          (v.y - (getClosestPointOnSegment v pq.1 pq.2).y) ^ 2)) :
    snapVerticesToEdges poly statics threshold = poly := by
  unfold snapVerticesToEdges
  have hfix : ∀ v ∈ poly,
      (statics.foldl
        (fun (acc : ℝ × Point) staticPoly =>
          let acc1 := staticPoly.foldl
            (fun (a : ℝ × Point) staticVertex =>
              let dist := Real.sqrt ((v.x - staticVertex.x) ^ 2 +
                (v.y - staticVertex.y) ^ 2)
              if dist < a.1 then (dist, staticVertex) else a)
            acc
          (cyclicPairs staticPoly).foldl
            (fun (a : ℝ × Point) pq =>
              let closestOnEdge := getClosestPointOnSegment v pq.1 pq.2
              let dist := Real.sqrt ((v.x - closestOnEdge.x) ^ 2 +
                (v.y - closestOnEdge.y) ^ 2)
              if dist < a.1 then (dist, closestOnEdge) else a)
            acc1)
        (threshold, v)) = (threshold, v) := by
    intro v hv
    refine foldl_fixed _ _ _ fun sp hsp => ?_
    have h1 : sp.foldl
        (fun (a : ℝ × Point) staticVertex =>
          let dist := Real.sqrt ((v.x - staticVertex.x) ^ 2 +
            (v.y - staticVertex.y) ^ 2)
          if dist < a.1 then (dist, staticVertex) else a)
        (threshold, v) = (threshold, v) := by
      refine foldl_fixed _ _ _ fun sv hsv => ?_
      simp only
      rw [if_neg (not_lt.mpr (hVtx v hv sp hsp sv hsv))]
    simp only [h1]
    refine foldl_fixed _ _ _ fun pq hpq => ?_
    simp only
    rw [if_neg (not_lt.mpr (hEdge v hv sp hsp pq hpq))]
  calc poly.map (fun v =>
        (statics.foldl _ (threshold, v)).2) = poly.map id := by
          refine List.map_congr_left fun v hv => ?_
          rw [hfix v hv]
          rfl
    _ = poly := List.map_id poly

/-- C10: a moving polygon that intersects no static polygon and whose every
vertex keeps distance at least 5 from all static vertices and from its
closest points on all static edges is returned by `resolveAllOverlaps`
exactly as it came in. -/
theorem resolveAllOverlaps_identity (movingPoly : List Point)
    (staticPolygons : List (List Point))
    (hNo : ∀ sp ∈ staticPolygons, doPolygonsIntersect movingPoly sp = false)
    (hVtx : ∀ v ∈ movingPoly, ∀ sp ∈ staticPolygons, ∀ sv ∈ sp,
      5 ≤ Real.sqrt ((v.x - sv.x) ^ 2 + (v.y - sv.y) ^ 2))
    (hEdge : ∀ v ∈ movingPoly, ∀ sp ∈ staticPolygons, ∀ pq ∈ cyclicPairs sp,
      5 ≤ Real.sqrt
        ((v.x - (getClosestPointOnSegment v pq.1 pq.2).x) ^ 2 +
          (v.y - (getClosestPointOnSegment v pq.1 pq.2).y) ^ 2)) :
    resolveAllOverlaps movingPoly staticPolygons = movingPoly := by
  unfold resolveAllOverlaps
  rw [show (10 : ℕ) = 9 + 1 from rfl,
    resolveLoop_of_no_overlap movingPoly staticPolygons 9 hNo]
  exact snapVerticesToEdges_id movingPoly staticPolygons 5 hVtx hEdge

/-- C10 witness: the unit square at the origin against a single far-away unit
square at `(10, 10)`: no intersection, every vertex more than 5 away from
every static vertex and edge, so the square comes back unchanged. -/
theorem resolveAllOverlaps_identity_witness :
    resolveAllOverlaps [⟨0,0⟩, ⟨1,0⟩, ⟨1,1⟩, ⟨0,1⟩]
        [[⟨10,10⟩, ⟨11,10⟩, ⟨11,11⟩, ⟨10,11⟩]] =
      [⟨0,0⟩, ⟨1,0⟩, ⟨1,1⟩, ⟨0,1⟩] :=
  resolveAllOverlaps_identity [⟨0,0⟩, ⟨1,0⟩, ⟨1,1⟩, ⟨0,1⟩]
    [[⟨10,10⟩, ⟨11,10⟩, ⟨11,11⟩, ⟨10,11⟩]]
    (by
      intro sp hsp
      simp only [List.mem_singleton] at hsp
      subst hsp
      norm_num [doPolygonsIntersect, scalePolygon, getCentroid, cyclicPairs,
        List.rotate, orientation, isPointInPolygon, listMin, listMax, ptAt,
        min_def, max_def])
    (by
      intro v hv sp hsp sv hsv
      simp only [List.mem_singleton] at hsp
      subst hsp
      simp only [List.mem_cons, List.mem_singleton, List.not_mem_nil, or_false] at hv hsv
      rcases hv with rfl | rfl | rfl | rfl <;>
        rcases hsv with rfl | rfl | rfl | rfl <;>
        · refine le_sqrt_of_sq_le _ 5 (by norm_num) ?_
          norm_num)
    (by
      intro v hv sp hsp pq hpq
      simp only [List.mem_singleton] at hsp
      subst hsp
      simp only [cyclicPairs, List.rotate, List.zip, List.zipWith, List.drop,
        List.take, List.length_cons, List.length_nil, List.mem_cons,
        List.mem_singleton, List.not_mem_nil, or_false] at hv hpq
      rcases hv with rfl | rfl | rfl | rfl <;>
        rcases hpq with rfl | rfl | rfl | rfl <;>
        · refine le_sqrt_of_sq_le _ 5 (by norm_num) ?_
          norm_num [getClosestPointOnSegment, min_def, max_def])

end VisualMapper
